import Mathlib

/-!
Verification model of the Gemma_Agent repository (`agent.py` / `app.py`).

The core under study is `GrafanaGemmaAgent` in `agent.py`: intent extraction
from oracle (LLM) text, schema-constrained metric resolution, PromQL
synthesis, Grafana execution, and answer formatting.  The oracle
(`self.model.generate_content`) and the HTTP backend (`requests.get`) are
external effects; they are modelled as function parameters returning
`Except String String` (resp. `Except String (List QueryRec)`), the `error`
payload standing for `str(e)` of a raised Python exception.  Python `dict`s
decoded from JSON are modelled as ordered association lists, matching
CPython's insertion-ordered dictionaries.
-/

namespace GemmaAgent

/-- JSON values as produced by Python's `json.loads`.  Numbers are modelled
exactly as rationals (Python distinguishes int/float; no claim here depends
on that distinction).  `NaN`/`Infinity` extensions are not modelled. -/
inductive Json where
  | null : Json
  | bool : Bool → Json
  | num : ℚ → Json
  | str : String → Json
  | arr : List Json → Json
  | obj : List (String × Json) → Json

/-- Python whitespace recognized by `str.strip()` (ASCII fragment). -/
def pyIsSpace (c : Char) : Bool :=
  c = ' ' || c = '\t' || c = '\n' || c = '\x0d' || c = '\x0b' || c = '\x0c'

/-- Python `str.strip()` on the ASCII whitespace set. -/
def pyStrip (s : String) : String :=
  ⟨((s.data.dropWhile pyIsSpace).reverse.dropWhile pyIsSpace).reverse⟩

/-- Python `str.lower()` (ASCII fragment, matching the metric-name alphabet). -/
def pyLower (s : String) : String :=
  ⟨s.data.map Char.toLower⟩

/-- Does `pat` occur at the start of `s`?  (List-level helper.) -/
def prefixAt : List Char → List Char → Bool
  | [], _ => true
  | _ :: _, [] => false
  | a :: as, b :: bs => a = b && prefixAt as bs

/-- Does `pat` occur somewhere in `s`?  Models Python `pat in s` on strings
(the empty pattern matches, as in Python). -/
def subAt (pat : List Char) : List Char → Bool
  | [] => prefixAt pat []
  | c :: rest => prefixAt pat (c :: rest) || subAt pat rest

/-- Python `pat in s` for strings. -/
def pyContains (s pat : String) : Bool :=
  subAt pat.data s.data

/-- Replace every (leftmost, non-overlapping) occurrence of `pat`, scanning
left to right; the fuel is the length of the scanned list.  Models Python
`str.replace` for a non-empty pattern. -/
def replaceAux (pat rep : List Char) : Nat → List Char → List Char
  | _, [] => []
  | 0, s => s
  | Nat.succ n, c :: rest =>
    if pat ≠ [] ∧ prefixAt pat (c :: rest) then
      rep ++ replaceAux pat rep n ((c :: rest).drop pat.length)
    else
      c :: replaceAux pat rep n rest

/-- Python `s.replace(pat, rep)` (for the non-empty patterns the code uses). -/
def pyReplace (s pat rep : String) : String :=
  ⟨replaceAux pat.data rep.data s.data.length s.data⟩

/-! ### The regex step of `parse_user_query`

`re.search(r'\x7b.*\x7d', response_text, re.DOTALL)` matches from the first
`\x7b` in the text to the last `\x7d` (greedy `.*` with DOTALL), provided
that `\x7d` lies strictly after that `\x7b`; otherwise there is no match. -/

/-- The prefix of `cs` ending at the last `\x7d` in `cs`, if any. -/
def upToLastRbrace (cs : List Char) : Option (List Char) :=
  match cs.reverse.dropWhile (fun c => ¬ c = '\x7d') with
  | [] => none
  | r => some r.reverse

/-- The span matched by `re.search(r'\x7b.*\x7d', ·, re.DOTALL)`:
from the first `\x7b` to the last `\x7d`, or `none` when the regex fails. -/
def extractSpan (cs : List Char) : Option (List Char) :=
  match cs.dropWhile (fun c => ¬ c = '\x7b') with
  | [] => none
  | b :: rest =>
    match upToLastRbrace rest with
    | none => none
    | some p => some (b :: p)

/-- Does the text contain a `\x7b` with some `\x7d` strictly after it
(the condition under which the regex matches)? -/
def hasBracePair : List Char → Bool
  | [] => false
  | c :: rest => if c = '\x7b' then rest.contains '\x7d' else hasBracePair rest

/-! ### A JSON parser modelling `json.loads`

Fuel-indexed recursive-descent parser over `List Char`.  It follows the JSON
grammar Python's `json.loads` accepts (strict mode): objects, arrays,
strings with escapes, numbers without leading zeros, `true`/`false`/`null`,
ASCII whitespace between tokens, and nothing but whitespace after the
value.  The `NaN`/`Infinity` extension and surrogate-pair combining in
`\uXXXX` escapes are not modelled (never exercised here). -/

/-- JSON inter-token whitespace. -/
def jsonWs (c : Char) : Bool :=
  c = ' ' || c = '\t' || c = '\n' || c = '\x0d'

def skipWs (cs : List Char) : List Char :=
  cs.dropWhile jsonWs

def isDigit (c : Char) : Bool :=
  '0' ≤ c && c ≤ '9'

def digitVal (c : Char) : ℕ :=
  c.toNat - '0'.toNat

def hexVal (c : Char) : Option ℕ :=
  if isDigit c then some (digitVal c)
  else
    let lc := Char.toLower c
    if 'a' ≤ lc && lc ≤ 'f' then some (lc.toNat - 'a'.toNat + 10) else none

/-- Parse the body of a JSON string (the opening quote already consumed),
returning the decoded characters and the rest.  Fuel-indexed. -/
def parseStrBody : Nat → List Char → Option (List Char × List Char)
  | 0, _ => none
  | _, [] => none
  | Nat.succ n, c :: rest =>
    if c = '"' then some ([], rest)
    else if c = '\\' then
      match rest with
      | [] => none
      | e :: rest2 =>
        if e = 'u' then
          match rest2 with
          | h1 :: h2 :: h3 :: h4 :: rest3 =>
            match hexVal h1, hexVal h2, hexVal h3, hexVal h4 with
            | some a, some b, some c2, some d =>
              match parseStrBody n rest3 with
              | some (cs, rem) =>
                some (Char.ofNat (((a * 16 + b) * 16 + c2) * 16 + d) :: cs, rem)
              | none => none
            | _, _, _, _ => none
          | _ => none
        else
          match
            (if e = '"' then some '"'
             else if e = '\\' then some '\\'
             else if e = '/' then some '/'
             else if e = 'b' then some '\x08'
             else if e = 'f' then some '\x0c'
             else if e = 'n' then some '\n'
             else if e = 'r' then some '\x0d'
             else if e = 't' then some '\t'
             else none) with
          | some d =>
            match parseStrBody n rest2 with
            | some (cs, rem) => some (d :: cs, rem)
            | none => none
          | none => none
    else if c.toNat < 32 then none
    else
      match parseStrBody n rest with
      | some (cs, rem) => some (c :: cs, rem)
      | none => none

/-- Digits prefix of a list. -/
def takeDigits (cs : List Char) : List Char × List Char :=
  (cs.takeWhile isDigit, cs.dropWhile isDigit)

def digitsToNat (ds : List Char) : ℕ :=
  ds.foldl (fun acc c => acc * 10 + digitVal c) 0

/-- Parse a JSON number (no leading zeros; optional fraction and exponent),
returning its exact rational value and the rest. -/
def parseNumber (cs : List Char) : Option (ℚ × List Char) :=
  let (neg, cs1) :=
    match cs with
    | '-' :: rest => (true, rest)
    | _ => (false, cs)
  match takeDigits cs1 with
  | ([], _) => none
  | (d :: ds, cs2) =>
    if d = '0' ∧ ds ≠ [] then none
    else
      let intPart : ℚ := (digitsToNat (d :: ds) : ℚ)
      let (fracPart, cs3) :=
        match cs2 with
        | '.' :: rest =>
          match takeDigits rest with
          | ([], _) => (none, cs2)
          | (fs, rest2) =>
            (some ((digitsToNat fs : ℚ) / ((10 : ℚ) ^ fs.length)), rest2)
        | _ => (none, cs2)
      match cs2, fracPart with
      | '.' :: _, none => none
      | _, _ =>
        let base : ℚ := intPart + (fracPart.getD 0)
        let (expPart, cs4) :=
          match cs3 with
          | e :: rest =>
            if e = 'e' ∨ e = 'E' then
              let (esign, rest1) :=
                match rest with
                | '+' :: r => ((1 : ℤ), r)
                | '-' :: r => ((-1 : ℤ), r)
                | _ => ((1 : ℤ), rest)
              match takeDigits rest1 with
              | ([], _) => (none, cs3)
              | (es, rest2) => (some (esign * (digitsToNat es : ℤ)), rest2)
            else (none, cs3)
          | [] => (none, cs3)
        match cs3, expPart with
        | e :: _, none =>
          if e = 'e' ∨ e = 'E' then none
          else
            let v := if neg then -base else base
            some (v, cs3)
        | _, _ =>
          let scaled :=
            match expPart with
            | some k => base * (10 : ℚ) ^ k
            | none => base
          let v := if neg then -scaled else scaled
          some (v, cs4)

/-- Insert a key into a decoded object the way Python dicts do: replace the
value in place when the key exists, append otherwise (last duplicate wins). -/
def objInsert (kvs : List (String × Json)) (k : String) (v : Json) :
    List (String × Json) :=
  match kvs with
  | [] => [(k, v)]
  | (k0, v0) :: rest =>
    if k0 = k then (k0, v) :: rest
    else (k0, v0) :: objInsert rest k v

mutual

/-- Parse one JSON value (leading whitespace allowed), fuel-indexed. -/
def parseVal : Nat → List Char → Option (Json × List Char)
  | 0, _ => none
  | Nat.succ n, cs =>
    match skipWs cs with
    | [] => none
    | c :: rest =>
      if c = '\x7b' then
        match skipWs rest with
        | '\x7d' :: rest2 => some (Json.obj [], rest2)
        | _ => parseMembers n rest []
      else if c = '[' then
        match skipWs rest with
        | ']' :: rest2 => some (Json.arr [], rest2)
        | _ => parseElems n rest []
      else if c = '"' then
        match parseStrBody (rest.length + 1) rest with
        | some (s, rem) => some (Json.str ⟨s⟩, rem)
        | none => none
      else if c = 't' then
        match rest with
        | 'r' :: 'u' :: 'e' :: rest2 => some (Json.bool true, rest2)
        | _ => none
      else if c = 'f' then
        match rest with
        | 'a' :: 'l' :: 's' :: 'e' :: rest2 => some (Json.bool false, rest2)
        | _ => none
      else if c = 'n' then
        match rest with
        | 'u' :: 'l' :: 'l' :: rest2 => some (Json.null, rest2)
        | _ => none
      else if isDigit c ∨ c = '-' then
        match parseNumber (c :: rest) with
        | some (q, rem) => some (Json.num q, rem)
        | none => none
      else none

/-- Parse the members of a JSON object after the opening brace (at least one
member present), accumulating decoded pairs. -/
def parseMembers (n : Nat) (cs : List Char) (acc : List (String × Json)) :
    Option (Json × List Char) :=
  match n with
  | 0 => none
  | Nat.succ m =>
    match skipWs cs with
    | '"' :: rest =>
      match parseStrBody (rest.length + 1) rest with
      | some (k, rest2) =>
        match skipWs rest2 with
        | ':' :: rest3 =>
          match parseVal m rest3 with
          | some (v, rest4) =>
            let acc2 := objInsert acc ⟨k⟩ v
            match skipWs rest4 with
            | ',' :: rest5 => parseMembers m rest5 acc2
            | '\x7d' :: rest5 => some (Json.obj acc2, rest5)
            | _ => none
          | none => none
        | _ => none
      | none => none
    | _ => none

/-- Parse the elements of a JSON array after the opening bracket (at least
one element present). -/
def parseElems (n : Nat) (cs : List Char) (acc : List Json) :
    Option (Json × List Char) :=
  match n with
  | 0 => none
  | Nat.succ m =>
    match parseVal m cs with
    | some (v, rest) =>
      match skipWs rest with
      | ',' :: rest2 => parseElems m rest2 (acc ++ [v])
      | ']' :: rest2 => some (Json.arr (acc ++ [v]), rest2)
      | _ => none
    | none => none

end

/-- Model of Python `json.loads`: parse a complete JSON document; trailing
whitespace is allowed, any other trailing data is an error (`none`). -/
def jsonLoads (s : String) : Option Json :=
  match parseVal (s.data.length + 1) s.data with
  | some (v, rest) => if skipWs rest = [] then some v else none
  | none => none

/-! ### Decoded intents as Python dicts -/

/-- Python `d.get(k)` / `d[k]` lookup on a decoded object. -/
def jget (kvs : List (String × Json)) (k : String) : Option Json :=
  match kvs with
  | [] => none
  | (k0, v0) :: rest => if k0 = k then some v0 else jget rest k

/-- Python `d[k] = v` on a decoded object (replace in place, else append). -/
def jset (kvs : List (String × Json)) (k : String) (v : Json) :
    List (String × Json) :=
  objInsert kvs k v

/-- Python truthiness of a JSON value. -/
def jtruthy : Json → Bool
  | Json.null => false
  | Json.bool b => b
  | Json.num q => q ≠ 0
  | Json.str s => s ≠ ""
  | Json.arr xs => !xs.isEmpty
  | Json.obj kvs => !kvs.isEmpty

/-- Python truthiness of `d.get(k)` (a missing key yields `None`, falsy). -/
def otruthy : Option Json → Bool
  | none => false
  | some j => jtruthy j

/-- Is the value Python `None` (JSON `null`) or the key missing?  This is the
`intent.get("metric") is not None` test, negated. -/
def isNoneLike : Option Json → Bool
  | none => true
  | some Json.null => true
  | some _ => false

/-- Is the value unhashable in Python (`list`/`dict`), so that membership
tests `x in d` and `d[x]` raise `TypeError`? -/
def isUnhashable : Json → Bool
  | Json.arr _ => true
  | Json.obj _ => true
  | _ => false

/-- Python numeric coercion used by `intent.get("confidence", 0.5) - 0.2`:
numbers are themselves, `bool` is an `int` subtype (`True == 1`), everything
else raises `TypeError` (`none`). -/
def asNum : Json → Option ℚ
  | Json.num q => some q
  | Json.bool b => some (if b then 1 else 0)
  | _ => none

/-- Python `str(...)` / f-string rendering of a decoded JSON value, for the
`None`/`bool`/`str`/integer cases the pipeline can actually reach; the
rendering of non-integer floats and of containers is approximated (no claim
exercises those). -/
def pyToStr : Json → String
  | Json.null => "None"
  | Json.bool b => if b then "True" else "False"
  | Json.str s => s
  | Json.num q => if q.den = 1 then toString q.num else toString q
  | Json.arr _ => "[...]"
  | Json.obj _ => "\x7b...\x7d"

/-- Rendering of `intent.get(k)` inside an f-string (`None` when missing). -/
def pyOptToStr : Option Json → String
  | none => "None"
  | some j => pyToStr j

/-! ### The data model of the agent -/

/-- A metric's schema entry (`schema.json` is loaded as
`json.load(f)["metrics"]`; the code reads the `description`, optional
`unit`, and `example_query` fields). -/
structure MetricSpec where
  description : String
  unit : Option String
  example_query : String

/-- The loaded schema: an insertion-ordered mapping from metric name to its
spec, modelling the Python dict `self.schema`. -/
abbrev Schema := List (String × MetricSpec)

/-- The iteration order of `self.schema.keys()`. -/
def schemaKeys (schema : Schema) : List String :=
  schema.map Prod.fst

/-- One record produced by `execute_promql`'s result shaping. -/
structure QueryRec where
  labels : List (String × String)
  timestamp : ℚ
  value : ℚ

/-- An oracle: the `self.model.generate_content(prompt).text` call; `error`
models a raised exception's `str(e)`. -/
abbrev Oracle := String → Except String String

/-- The metrics backend behind `requests.get`: maps the PromQL string to the
shaped result list, or a raised exception's `str(e)`. -/
abbrev Backend := String → Except String (List QueryRec)

/-! ### Prompt construction (the f-strings of `agent.py`) -/

/-- The `metrics_info` block of the extraction prompt. -/
def metricsInfo (schema : Schema) : String :=
  String.intercalate "\n"
    (schema.map fun kv =>
      "- " ++ kv.1 ++ ": " ++ kv.2.description ++ " (unit: " ++
        (kv.2.unit.getD "N/A") ++ ")")

/-- The extraction prompt of `parse_user_query`. -/
def parsePrompt (schema : Schema) (user_query : String) : String :=
  "\nYou are a system monitoring assistant using Gemma model. Parse the following user query into a structured JSON format.\n\nAvailable metrics:\n"
  ++ metricsInfo schema
  ++ "\n\nUser query: \"" ++ user_query ++ "\"\n\nExtract the following information and respond with ONLY a valid JSON object:\n\x7b\n    \"metric\": \"exact_metric_name_from_list_above\",\n    \"aggregation\": \"avg|max|min|sum\",\n    \"time_range\": \"5m|15m|1h|6h|24h\",\n    \"intent\": \"brief_description_of_what_user_wants\",\n    \"confidence\": 0.0-1.0\n\x7d\n\nRules:\n1. If no specific aggregation is mentioned, use \"avg\"\n2. If no time range is mentioned, use \"5m\"\n3. Match the closest metric from the available list\n4. Set confidence based on how certain you are about the mapping\n5. If you can\x27t determine the metric, set it to null\n\nExamples:\n- \"What\x27s the CPU usage?\" → \x7b\"metric\": \"cpu_usage\", \"aggregation\": \"avg\", \"time_range\": \"5m\", \"intent\": \"get current CPU usage\", \"confidence\": 0.9\x7d\n- \"Show me maximum memory consumption in the last hour\" → \x7b\"metric\": \"memory_usage\", \"aggregation\": \"max\", \"time_range\": \"1h\", \"intent\": \"get peak memory usage\", \"confidence\": 0.95\x7d\n\nRespond with ONLY the JSON object, no other text.\n"

/-- Python `repr` of the key list, as interpolated by `find_closest_metric`. -/
def keysRepr (schema : Schema) : String :=
  "[" ++
    String.intercalate ", "
      ((schemaKeys schema).map fun k => "\x27" ++ k ++ "\x27")
  ++ "]"

/-- The resolution prompt of `find_closest_metric`. -/
def resolvePrompt (schema : Schema) (user_query : String) : String :=
  "\nUsing Gemma model, analyze this user query: \"" ++ user_query ++
  "\"\n\nAvailable metrics:\n" ++ keysRepr schema ++
  "\n\nWhich metric from the list above is most relevant to the user\x27s question?\nRespond with ONLY the metric name, nothing else.\n"

/-- The formatting prompt of `format_answer`. -/
def formatPrompt (intentText description agg formatted_value time_range : String) :
    String :=
  "\nYou are using Gemma model to generate a natural, conversational response for a system monitoring query.\n\nUser asked: \"" ++ intentText ++
  "\"\nMetric: " ++ description ++
  "\nAggregation: " ++ agg ++
  "\nValue: " ++ formatted_value ++
  "\nTime range: " ++ time_range ++
  "\n\nGenerate a brief, helpful response (1-2 sentences) that:\n1. Directly answers the user\x27s question\n2. Provides the specific value with appropriate context\n3. Uses natural language (avoid technical jargon)\n\nExample: \"The current average CPU usage is 15.6%, which indicates normal system load.\"\n\nRespond with only the natural language answer, no other text.\n"

/-! ### Error message strings (`str(e)` of the Python exceptions) -/

/-- Python type names, for the `TypeError`/`AttributeError` messages.  JSON
numbers are rendered with the `float` name (the int/float distinction is
not modelled; no claim depends on these messages). -/
def pyTypeName : Json → String
  | Json.null => "NoneType"
  | Json.bool _ => "bool"
  | Json.num _ => "float"
  | Json.str _ => "str"
  | Json.arr _ => "list"
  | Json.obj _ => "dict"

/-- `str(e)` of the `TypeError` raised by `x in dict` on an unhashable `x`. -/
def unhashableTypeMsg (j : Json) : String :=
  "unhashable type: \x27" ++ pyTypeName j ++ "\x27"

/-- `str(e)` of the `TypeError` raised by `confidence - 0.2` on a
non-numeric confidence. -/
def subTypeErrMsg (j : Json) : String :=
  "unsupported operand type(s) for -: \x27" ++ pyTypeName j ++
    "\x27 and \x27float\x27"

/-- `str(e)` of the `AttributeError` raised by `.capitalize()` on a
non-string aggregation value. -/
def capitalizeAttrErrMsg (j : Json) : String :=
  "\x27" ++ pyTypeName j ++ "\x27 object has no attribute \x27capitalize\x27"

/-- `str(e)` of the `ValueError` raised by `build_promql`. -/
def metricNotInSchemaMsg (m : Option Json) : String :=
  "Metric \x27" ++ pyOptToStr m ++ "\x27 not in schema"

/-- `str(e)` of `json.JSONDecodeError`; its position-bearing text is not
modelled, only that it is distinct from the no-JSON-found message. -/
def jsonDecodeErrMsg : String :=
  "JSONDecodeError"

/-- `str(e)` of the `ValueError` raised when the regex finds no JSON span. -/
def noStructuredMsg : String :=
  "No valid JSON found in Gemma response"

/-- `str(e)` of the `IndexError` raised by `list(self.schema.keys())[0]`
on an empty schema. -/
def indexErrMsg : String :=
  "list index out of range"

/-! ### `find_closest_metric` (agent.py lines 117-138) -/

/-- The pure resolution logic of `find_closest_metric`, applied to the
oracle's raw response text: (1) if the lowercased stripped response is a
schema key, return it; (2) otherwise return the first schema key whose
lowercase form occurs in the lowercased raw response; (3) otherwise the
first schema key (`none` models the `IndexError` on an empty schema). -/
def resolveFromResponse (schema : Schema) (respText : String) : Option String :=
  let metric_name := pyLower (pyStrip respText)
  if (schemaKeys schema).contains metric_name then some metric_name
  else
    match schema.find? (fun kv => pyContains (pyLower respText) (pyLower kv.1)) with
    | some kv => some kv.1
    | none => (schemaKeys schema).head?

/-- `find_closest_metric`: one oracle call with the resolution prompt, then
the pure resolution logic. -/
def find_closest_metric (oracle : Oracle) (schema : Schema)
    (user_query : String) : Except String String :=
  match oracle (resolvePrompt schema user_query) with
  | Except.error e => Except.error e
  | Except.ok respText =>
    match resolveFromResponse schema respText with
    | some k => Except.ok k
    | none => Except.error indexErrMsg

/-! ### `parse_user_query` (agent.py lines 63-115) -/

/-- The post-processing of the oracle's extraction reply: strip, run
`re.search(r'\x7b.*\x7d', ·, re.DOTALL)`, and `json.loads` the matched span.
A successful `json.loads` of a span that starts with `\x7b` is always an
object. -/
def decode_oracle_reply (raw : String) : Except String (List (String × Json)) :=
  let response_text := pyStrip raw
  match extractSpan response_text.data with
  | none => Except.error noStructuredMsg
  | some span =>
    match jsonLoads ⟨span⟩ with
    | some (Json.obj kvs) => Except.ok kvs
    | some _ => Except.error jsonDecodeErrMsg
    | none => Except.error jsonDecodeErrMsg

/-- Is the decoded `metric` value a key of the schema (`x in self.schema`
for a hashable `x`: only a string can equal a string key)? -/
def metricInSchema (schema : Schema) (j : Json) : Bool :=
  match j with
  | Json.str s => (schemaKeys schema).contains s
  | _ => false

/-- The validation step of `parse_user_query` (`agent.py` lines 109-113),
acting on the decoded object: when the decoded metric is non-null and not a
schema key it is replaced by `find_closest_metric` and the confidence is
rewritten to `max(0.3, confidence - 0.2)` (default 0.5 when absent).  The
membership test `intent.get("metric") not in self.schema` raises
`TypeError` on unhashable values before the null test runs. -/
def validate_intent (oracle : Oracle) (schema : Schema) (user_query : String)
    (kvs : List (String × Json)) : Except String (List (String × Json)) :=
  match jget kvs "metric" with
  | none => Except.ok kvs
  | some Json.null => Except.ok kvs
  | some j =>
    if isUnhashable j then Except.error (unhashableTypeMsg j)
    else if metricInSchema schema j then Except.ok kvs
    else
      match find_closest_metric oracle schema user_query with
      | Except.error e => Except.error e
      | Except.ok r =>
        match asNum ((jget kvs "confidence").getD (Json.num (1/2))) with
        | none =>
          Except.error (subTypeErrMsg ((jget kvs "confidence").getD (Json.num (1/2))))
        | some c =>
          Except.ok
            (jset (jset kvs "metric" (Json.str r)) "confidence"
              (Json.num (max (3/10) (c - 1/5))))

/-- `parse_user_query` (`agent.py` lines 63-115): one oracle call with the
extraction prompt, the JSON post-processing, then the validation step. -/
def parse_user_query (oracle : Oracle) (schema : Schema)
    (user_query : String) : Except String (List (String × Json)) :=
  match oracle (parsePrompt schema user_query) with
  | Except.error e => Except.error e
  | Except.ok raw =>
    match decode_oracle_reply raw with
    | Except.error e => Except.error e
    | Except.ok kvs => validate_intent oracle schema user_query kvs

/-! ### `build_promql` (agent.py lines 140-162) -/

/-- Equality of a decoded JSON value with a Python string literal. -/
def jeqStr (j : Json) (s : String) : Bool :=
  match j with
  | Json.str t => t = s
  | _ => false

/-- The time-range substitution step: when the template contains the literal
default token `[5m]` and the intent's time range differs from `"5m"`, every
occurrence of the token is replaced (`str.replace`). -/
def substTimeRange (base_query : String) (time_range : Json) : String :=
  if pyContains base_query "[5m]" && !(jeqStr time_range "5m") then
    pyReplace base_query "[5m]" ("[" ++ pyToStr time_range ++ "]")
  else base_query

/-- `build_promql`: the guard `if not metric or metric not in self.schema`
(Python truthiness: `None`, a missing key, and the empty string all fail
it), then time-range substitution and aggregation wrapping; an unknown
aggregation returns the substituted template unchanged. -/
def build_promql (schema : Schema) (intent : List (String × Json)) :
    Except String String :=
  let metric := jget intent "metric"
  let agg := (jget intent "aggregation").getD (Json.str "avg")
  let time_range := (jget intent "time_range").getD (Json.str "5m")
  match metric with
  | some (Json.str s) =>
    if s = "" then Except.error (metricNotInSchemaMsg metric)
    else
      match List.lookup s schema with
      | some spec =>
        let base_query := substTimeRange spec.example_query time_range
        if jeqStr agg "max" then Except.ok ("max(" ++ base_query ++ ")")
        else if jeqStr agg "min" then Except.ok ("min(" ++ base_query ++ ")")
        else if jeqStr agg "sum" then Except.ok ("sum(" ++ base_query ++ ")")
        else if jeqStr agg "avg" then Except.ok ("avg(" ++ base_query ++ ")")
        else Except.ok base_query
      | none => Except.error (metricNotInSchemaMsg metric)
  | some j =>
    if jtruthy j then
      if isUnhashable j then Except.error (unhashableTypeMsg j)
      else Except.error (metricNotInSchemaMsg metric)
    else Except.error (metricNotInSchemaMsg metric)
  | none => Except.error (metricNotInSchemaMsg metric)

/-! ### `execute_promql` (agent.py lines 164-197)

The HTTP request and the result shaping are the external-collaborator
boundary; they are abstracted as the `Backend` function (already yielding
shaped `QueryRec` lists or a raised exception's string).  Only the
credential guard is repository decision logic. -/

def execute_promql (apiKeyConfigured : Bool) (backend : Backend)
    (promql : String) : Except String (List QueryRec) :=
  if !apiKeyConfigured then Except.error "Grafana API key not configured"
  else backend promql

/-! ### `format_answer` (agent.py lines 199-234) -/

/-- Python `str.capitalize()`: first character uppercased, the rest
lowercased (ASCII fragment). -/
def pyCapitalize (s : String) : String :=
  match s.data with
  | [] => ""
  | c :: rest => ⟨Char.toUpper c :: rest.map Char.toLower⟩

/-- Round to the nearest integer, ties to even (the rounding of Python's
fixed-point format specifier, modelled on exact rationals). -/
def roundHalfEven (q : ℚ) : ℤ :=
  let f := Int.floor q
  let frac := q - f
  if frac < 1/2 then f
  else if 1/2 < frac then f + 1
  else if f % 2 = 0 then f else f + 1

/-- Python `f"..:.2f"` formatting of the (already scaled) value. -/
def formatFixed2 (q : ℚ) : String :=
  let cents := roundHalfEven (q * 100)
  let sign := if cents < 0 then "-" else ""
  let a := cents.natAbs
  sign ++ toString (a / 100) ++ "." ++
    (if a % 100 < 10 then "0" else "") ++ toString (a % 100)

/-- The fixed no-data sentence returned without consulting the oracle. -/
def noDataMsg : String :=
  "No data found for this metric and time range."

/-- `format_answer`: the empty-result short circuit, then unit scaling
(multiply by 100 for a `%` unit), prompt construction, one oracle call, and
the stripped oracle text.  The lookups `intent["metric"]`,
`self.schema[metric_name]` and `intent["intent"]` raise `KeyError` on
missing keys; `.capitalize()` raises `AttributeError` on a non-string
aggregation. -/
def format_answer (oracle : Oracle) (schema : Schema)
    (intent : List (String × Json)) (metrics : List QueryRec) :
    Except String String :=
  match metrics with
  | [] => Except.ok noDataMsg
  | m0 :: _ =>
    match jget intent "metric" with
    | none => Except.error "\x27metric\x27"
    | some mj =>
      match mj with
      | Json.str metric_name =>
        match List.lookup metric_name schema with
        | none => Except.error ("\x27" ++ metric_name ++ "\x27")
        | some metric_info =>
          let unit := metric_info.unit.getD ""
          let value := if unit = "%" then m0.value * 100 else m0.value
          match (jget intent "aggregation").getD (Json.str "avg") with
          | Json.str a =>
            let agg := pyCapitalize a
            let formatted_value := formatFixed2 value ++ unit
            match jget intent "intent" with
            | none => Except.error "\x27intent\x27"
            | some it =>
              match
                oracle
                  (formatPrompt (pyToStr it) metric_info.description agg
                    formatted_value
                    (pyOptToStr ((jget intent "time_range").getD (Json.str "5m")))) with
              | Except.error e => Except.error e
              | Except.ok resp => Except.ok (pyStrip resp)
          | aggJ => Except.error (capitalizeAttrErrMsg aggJ)
      | _ =>
        if isUnhashable mj then Except.error (unhashableTypeMsg mj)
        else Except.error ("\x27" ++ pyToStr mj ++ "\x27")

/-! ### `process_query` (agent.py lines 236-267) -/

/-- The user-facing sentence produced by the orchestrator's `except` block,
embedding `str(e)`. -/
def errorSentence (e : String) : String :=
  "I encountered an error while processing your query: " ++ e

/-- The fallback sentence of the `if not intent.get("metric")` branch. -/
def couldNotUnderstandMsg : String :=
  "I couldn\x27t understand which metric you\x27re asking about. Please try asking about CPU usage, memory usage, GPU utilization, or system uptime."

/-- `process_query`: the orchestrator.  Sequences extraction, the falsy
metric guard, synthesis, execution and formatting; any stage failure is
caught and rendered with `errorSentence`.  The append-only conversation
log carries no decision logic and is omitted. -/
def process_query (oracle : Oracle) (backend : Backend)
    (apiKeyConfigured : Bool) (schema : Schema) (user_query : String) :
    String :=
  match parse_user_query oracle schema user_query with
  | Except.error e => errorSentence e
  | Except.ok intent =>
    if !otruthy (jget intent "metric") then couldNotUnderstandMsg
    else
      match build_promql schema intent with
      | Except.error e => errorSentence e
      | Except.ok promql =>
        match execute_promql apiKeyConfigured backend promql with
        | Except.error e => errorSentence e
        | Except.ok metrics =>
          match format_answer oracle schema intent metrics with
          | Except.error e => errorSentence e
          | Except.ok answer => answer

/-- The first stage failure (`str(e)`) a turn runs into, if any: the
exception that reaches `process_query`'s `except` block. -/
def stage_failure (oracle : Oracle) (backend : Backend)
    (apiKeyConfigured : Bool) (schema : Schema) (user_query : String) :
    Option String :=
  match parse_user_query oracle schema user_query with
  | Except.error e => some e
  | Except.ok intent =>
    if !otruthy (jget intent "metric") then none
    else
      match build_promql schema intent with
      | Except.error e => some e
      | Except.ok promql =>
        match execute_promql apiKeyConfigured backend promql with
        | Except.error e => some e
        | Except.ok metrics =>
          match format_answer oracle schema intent metrics with
          | Except.error e => some e
          | Except.ok _ => none

/-! ## Helper lemmas -/

theorem lookup_isSome_iff (s : String) (schema : Schema) :
    (List.lookup s schema).isSome ↔ s ∈ schemaKeys schema := by
  induction schema with
  | nil => simp [List.lookup, schemaKeys]
  | cons kv rest ih =>
    cases kv with
    | mk k v =>
      by_cases h : s = k
      · simp [List.lookup, schemaKeys, h]
      · have hbeq : (s == k) = false := by simp [h]
        simp [List.lookup, schemaKeys, hbeq, ih, h]

theorem jget_objInsert_same (kvs : List (String × Json)) (k : String) (v : Json) :
    jget (objInsert kvs k v) k = some v := by
  induction kvs with
  | nil => simp [objInsert, jget]
  | cons kv rest ih =>
    cases kv with
    | mk k0 v0 =>
      by_cases h : k0 = k <;> simp [objInsert, jget, h, ih]

theorem jget_objInsert_ne (kvs : List (String × Json)) (k k2 : String) (v : Json)
    (h : k ≠ k2) : jget (objInsert kvs k v) k2 = jget kvs k2 := by
  induction kvs with
  | nil => simp [objInsert, jget, h]
  | cons kv rest ih =>
    cases kv with
    | mk k0 v0 =>
      by_cases h0 : k0 = k
      · subst h0
        simp [objInsert, jget, h]
      · simp [objInsert, jget, h0, ih]

theorem find?_append_cons {α : Type} (p : α → Bool) (l : List α) (a : α)
    (r : List α) (hl : ∀ x ∈ l, p x = false) (ha : p a = true) :
    List.find? p (l ++ a :: r) = some a := by
  induction l with
  | nil => simp [List.find?_cons_of_pos, ha]
  | cons x xs ih =>
    have hx : p x = false := hl x (List.mem_cons_self x xs)
    simp only [List.cons_append]
    rw [List.find?_cons_of_neg _ (by simp [hx])]
    exact ih fun y hy => hl y (List.mem_cons_of_mem x hy)

theorem resolve_mem (schema : Schema) (resp k : String)
    (h : resolveFromResponse schema resp = some k) : k ∈ schemaKeys schema := by
  unfold resolveFromResponse at h
  by_cases hc : (schemaKeys schema).contains (pyLower (pyStrip resp)) = true
  · rw [if_pos hc] at h
    cases h
    exact List.elem_iff.mp hc
  · rw [if_neg hc] at h
    cases hf : schema.find? (fun kv => pyContains (pyLower resp) (pyLower kv.1)) with
    | some kv =>
      rw [hf] at h
      cases h
      exact List.mem_map_of_mem Prod.fst (List.mem_of_find?_eq_some hf)
    | none =>
      rw [hf] at h
      cases hh : (schemaKeys schema).head? with
      | none => rw [hh] at h; cases h
      | some k0 =>
        rw [hh] at h
        cases h
        exact List.mem_of_mem_head? hh

/-! ## Concrete fixtures used by witnesses and counterexamples -/

/-- A small sample schema in the shape of the repository's `schema.json`. -/
def exSchema : Schema :=
  [("cpu_usage", MetricSpec.mk "CPU usage percentage" (some "%") "rate(cpu[5m])"),
   ("memory_usage", MetricSpec.mk "Memory usage percentage" (some "%") "mem[5m]")]

/-- A schema whose second key contains uppercase letters. -/
def ciSchema : Schema :=
  [("cpu", MetricSpec.mk "CPU" none "cpu[5m]"),
   ("CPU_usage", MetricSpec.mk "CPU usage" none "cpu_usage[5m]")]

/-- A schema containing the empty string as a key. -/
def emptyKeySchema : Schema :=
  [("", MetricSpec.mk "odd metric" none "odd[5m]")]

/-! ## Claims -/

/-- C10: for every intent, if the results sequence passed to the Answer
Formatter is empty, the formatter returns the fixed no-data sentence; the
result is the same for every oracle, so no oracle call is made (in the
source the `return` precedes the `generate_content` call). -/
theorem C10_no_data (oracle : Oracle) (schema : Schema)
    (intent : List (String × Json)) :
    format_answer oracle schema intent [] = Except.ok noDataMsg := rfl

/-- C7: an intent with aggregation `max` and time range `1h` against a
metric whose template is `foo[5m]` synthesizes exactly `max(foo[1h])`; and
the time-range substitution step leaves the template unchanged whenever the
template lacks the literal `[5m]` token or the time range is the default. -/
theorem C7_aggregation_wrapping (schema : Schema)
    (intent : List (String × Json)) (s : String) (spec : MetricSpec)
    (hm : jget intent "metric" = some (Json.str s)) (hs : s ≠ "")
    (hl : List.lookup s schema = some spec)
    (ht : spec.example_query = "foo[5m]")
    (ha : jget intent "aggregation" = some (Json.str "max"))
    (htr : jget intent "time_range" = some (Json.str "1h")) :
    build_promql schema intent = Except.ok "max(foo[1h])" ∧
    ∀ (tmpl : String) (tr : Json),
      (pyContains tmpl "[5m]" = false ∨ tr = Json.str "5m") →
      substTimeRange tmpl tr = tmpl := by
  constructor
  · simp only [build_promql, hm, ha, htr, Option.getD_some]
    rw [if_neg hs, hl]
    simp only [jeqStr, ht]
    rfl
  · intro tmpl tr h
    unfold substTimeRange
    rcases h with h | h
    · simp [h]
    · simp [h, jeqStr]

/-- C7 witness: the synthesis at the spec's own example. -/
theorem C7_witness :
    build_promql [("foo_metric", MetricSpec.mk "foo" none "foo[5m]")]
      [("metric", Json.str "foo_metric"), ("aggregation", Json.str "max"),
       ("time_range", Json.str "1h")] = Except.ok "max(foo[1h])" :=
  (C7_aggregation_wrapping
    [("foo_metric", MetricSpec.mk "foo" none "foo[5m]")]
    [("metric", Json.str "foo_metric"), ("aggregation", Json.str "max"),
     ("time_range", Json.str "1h")]
    "foo_metric" (MetricSpec.mk "foo" none "foo[5m]")
    rfl (by decide) rfl rfl rfl rfl).1

/-- C8: an intent whose aggregation is a string outside the four known
functions makes the synthesizer return the time-range-substituted template
unwrapped and unchanged — a silent pass-through, not an error. -/
theorem C8_unknown_aggregation (schema : Schema)
    (intent : List (String × Json)) (s a : String) (spec : MetricSpec)
    (hm : jget intent "metric" = some (Json.str s)) (hs : s ≠ "")
    (hl : List.lookup s schema = some spec)
    (ha : jget intent "aggregation" = some (Json.str a))
    (h1 : a ≠ "avg") (h2 : a ≠ "max") (h3 : a ≠ "min") (h4 : a ≠ "sum") :
    build_promql schema intent =
      Except.ok
        (substTimeRange spec.example_query
          ((jget intent "time_range").getD (Json.str "5m"))) := by
  simp only [build_promql, hm, ha, Option.getD_some]
  rw [if_neg hs, hl]
  simp [jeqStr, h1, h2, h3, h4]

/-- C8 witness: the `p99` aggregation of the spec's example passes the
substituted template through unchanged. -/
theorem C8_witness :
    build_promql [("foo_metric", MetricSpec.mk "foo" none "foo[5m]")]
      [("metric", Json.str "foo_metric"), ("aggregation", Json.str "p99"),
       ("time_range", Json.str "1h")] = Except.ok "foo[1h]" :=
  C8_unknown_aggregation
    [("foo_metric", MetricSpec.mk "foo" none "foo[5m]")]
    [("metric", Json.str "foo_metric"), ("aggregation", Json.str "p99"),
     ("time_range", Json.str "1h")]
    "foo_metric" "p99" (MetricSpec.mk "foo" none "foo[5m]")
    rfl (by decide) rfl rfl
    (by decide) (by decide) (by decide) (by decide)

/-- C1: for every oracle response text, when the Metric Resolver runs (the
extractor named an out-of-schema metric) its pure resolution logic returns
a key of the schema mapping — never `none`, never out of schema — and when
neither the exact step nor the substring step matches, the result is the
first key in the schema's iteration order.  The sole hypothesis is that the
loaded schema is non-empty (on an empty schema the Python fallback
`list(self.schema.keys())[0]` raises `IndexError`, but the claim quantifies
only over queries and oracle responses, the schema being fixed at load). -/
theorem C1_resolver_totality (schema : Schema) (resp : String)
    (h : schema ≠ []) :
    (∃ k, resolveFromResponse schema resp = some k ∧ k ∈ schemaKeys schema) ∧
    (((schemaKeys schema).contains (pyLower (pyStrip resp)) = false ∧
      ∀ kv ∈ schema, pyContains (pyLower resp) (pyLower kv.1) = false) →
      resolveFromResponse schema resp = (schemaKeys schema).head?) := by
  have hkeys : schemaKeys schema ≠ [] := by
    intro hk
    exact h (List.map_eq_nil_iff.mp hk)
  constructor
  · cases hr : resolveFromResponse schema resp with
    | some k => exact ⟨k, rfl, resolve_mem schema resp k hr⟩
    | none =>
      exfalso
      unfold resolveFromResponse at hr
      by_cases hc : (schemaKeys schema).contains (pyLower (pyStrip resp)) = true
      · rw [if_pos hc] at hr
        cases hr
      · rw [if_neg hc] at hr
        cases hf : schema.find? (fun kv => pyContains (pyLower resp) (pyLower kv.1)) with
        | some kv => rw [hf] at hr; cases hr
        | none =>
          rw [hf] at hr
          rw [List.head?_eq_none_iff] at hr
          exact hkeys hr
  · rintro ⟨hc, hall⟩
    unfold resolveFromResponse
    rw [if_neg (by rw [hc]; simp)]
    have hf : schema.find? (fun kv => pyContains (pyLower resp) (pyLower kv.1)) = none := by
      rw [List.find?_eq_none]
      intro x hx
      simp [hall x hx]
    rw [hf]

/-- C1 witness: on a schema with two metrics and an unusable oracle
response, the resolver still yields an in-schema key. -/
theorem C1_witness :
    ∃ k, resolveFromResponse exSchema "unrelated text" = some k ∧
      k ∈ schemaKeys exSchema :=
  (C1_resolver_totality exSchema "unrelated text" (by simp [exSchema])).1

/-- C6 counterexample: resolution step 1 is not a case-insensitive match of
the trimmed response against the schema keys.  With keys `cpu` and
`CPU_usage` and the oracle response `cpu_usage`, the trimmed response
matches the key `CPU_usage` case-insensitively, yet the code returns
`cpu` (step 1 lowercases only the response, so it cannot equal a key that
contains uppercase, and the substring step then picks the earlier key). -/
theorem C6_counterexample :
    pyLower (pyStrip "cpu_usage") = pyLower "CPU_usage" ∧
    "CPU_usage" ∈ schemaKeys ciSchema ∧
    resolveFromResponse ciSchema "cpu_usage" = some "cpu" ∧
    ("cpu" : String) ≠ "CPU_usage" := by
  refine ⟨rfl, ?_, rfl, by decide⟩
  simp [ciSchema, schemaKeys]

/-- C6 amended: resolution order, first match wins: (1) if the lowercased
trimmed response literally equals a schema key, that string is returned (a
key containing uppercase can never match this step); (2) otherwise the
first schema key in iteration order whose lowercase form occurs as a
substring of the lowercased raw response; (3) otherwise the first key in
the schema's iteration order. -/
theorem C6_amended (schema : Schema) (resp : String) :
    ((schemaKeys schema).contains (pyLower (pyStrip resp)) = true →
      resolveFromResponse schema resp = some (pyLower (pyStrip resp))) ∧
    (∀ l kv r, schema = l ++ kv :: r →
      (schemaKeys schema).contains (pyLower (pyStrip resp)) = false →
      pyContains (pyLower resp) (pyLower kv.1) = true →
      (∀ kv2 ∈ l, pyContains (pyLower resp) (pyLower kv2.1) = false) →
      resolveFromResponse schema resp = some kv.1) ∧
    (((schemaKeys schema).contains (pyLower (pyStrip resp)) = false ∧
      ∀ kv ∈ schema, pyContains (pyLower resp) (pyLower kv.1) = false) →
      resolveFromResponse schema resp = (schemaKeys schema).head?) := by
  refine ⟨?_, ?_, ?_⟩
  · intro hc
    unfold resolveFromResponse
    rw [if_pos hc]
  · intro l kv r hdecomp hc hkv hl
    unfold resolveFromResponse
    rw [if_neg (by rw [hc]; simp)]
    rw [hdecomp, find?_append_cons _ l kv r (fun x hx => hl x hx) hkv]
  · rintro ⟨hc, hall⟩
    unfold resolveFromResponse
    rw [if_neg (by rw [hc]; simp)]
    have hf : schema.find? (fun kv => pyContains (pyLower resp) (pyLower kv.1)) = none := by
      rw [List.find?_eq_none]
      intro x hx
      simp [hall x hx]
    rw [hf]

/-- C6 witness: the substring step picks `memory_usage` out of a longer
response once the exact step has failed. -/
theorem C6_witness :
    resolveFromResponse exSchema "use memory_usage please" =
      some "memory_usage" :=
  (C6_amended exSchema "use memory_usage please").2.1
    [("cpu_usage", MetricSpec.mk "CPU usage percentage" (some "%") "rate(cpu[5m])")]
    ("memory_usage", MetricSpec.mk "Memory usage percentage" (some "%") "mem[5m]")
    [] rfl rfl rfl
    (by
      intro kv2 h2
      rw [List.mem_singleton] at h2
      subst h2
      decide)

theorem jget_replaced_metric (kvs : List (String × Json)) (r : String)
    (v : Json) :
    jget (jset (jset kvs "metric" (Json.str r)) "confidence" v) "metric" =
      some (Json.str r) := by
  unfold jset
  rw [jget_objInsert_ne _ _ _ _ (by decide)]
  exact jget_objInsert_same _ _ _

theorem jget_replaced_confidence (kvs : List (String × Json)) (r : String)
    (v : Json) :
    jget (jset (jset kvs "metric" (Json.str r)) "confidence" v) "confidence" =
      some v := by
  unfold jset
  exact jget_objInsert_same _ _ _

theorem find_closest_ok_mem (oracle : Oracle) (schema : Schema) (q k : String)
    (h : find_closest_metric oracle schema q = Except.ok k) :
    k ∈ schemaKeys schema := by
  unfold find_closest_metric at h
  split at h
  · exact Except.noConfusion h
  · split at h
    · rename_i rt _ k2 hr
      injection h with h
      subst h
      exact resolve_mem _ _ _ hr
    · exact Except.noConfusion h

theorem otruthy_false_of_isNoneLike {o : Option Json}
    (h : isNoneLike o = true) : otruthy o = false := by
  match o with
  | none => rfl
  | some Json.null => rfl
  | some (Json.bool b) => exact absurd h (by simp [isNoneLike])
  | some (Json.num q) => exact absurd h (by simp [isNoneLike])
  | some (Json.str s) => exact absurd h (by simp [isNoneLike])
  | some (Json.arr xs) => exact absurd h (by simp [isNoneLike])
  | some (Json.obj kvs) => exact absurd h (by simp [isNoneLike])

/-- Case analysis of a successful validation step: either the decoded
metric was null/missing and the object is returned unchanged, or the
returned intent carries a string metric that is a schema key. -/
theorem validate_ok_cases (oracle : Oracle) (schema : Schema) (q : String)
    (kvs intent : List (String × Json))
    (hv : validate_intent oracle schema q kvs = Except.ok intent) :
    (isNoneLike (jget kvs "metric") = true ∧ intent = kvs) ∨
    (isNoneLike (jget kvs "metric") = false ∧
      ∃ s, jget intent "metric" = some (Json.str s) ∧ s ∈ schemaKeys schema) := by
  unfold validate_intent at hv
  cases hm : jget kvs "metric" with
  | none =>
    rw [hm] at hv
    simp only [] at hv
    injection hv with hv
    exact Or.inl ⟨rfl, hv.symm⟩
  | some j =>
    rw [hm] at hv
    cases j with
    | null =>
      simp only [] at hv
      injection hv with hv
      exact Or.inl ⟨rfl, hv.symm⟩
    | str s =>
      simp only [] at hv
      by_cases hin : metricInSchema schema (Json.str s) = true
      · rw [if_neg (by simp [isUnhashable]), if_pos hin] at hv
        injection hv with hv
        subst hv
        refine Or.inr ⟨rfl, s, hm, ?_⟩
        unfold metricInSchema at hin
        exact List.elem_iff.mp hin
      · rw [if_neg (by simp [isUnhashable]), if_neg hin] at hv
        cases hf : find_closest_metric oracle schema q with
        | error e => rw [hf] at hv; exact Except.noConfusion hv
        | ok r =>
          rw [hf] at hv
          cases hc : asNum ((jget kvs "confidence").getD (Json.num (1/2))) with
          | none => rw [hc] at hv; exact Except.noConfusion hv
          | some c =>
            rw [hc] at hv
            injection hv with hv
            refine Or.inr ⟨rfl, r, ?_, find_closest_ok_mem _ _ _ _ hf⟩
            rw [← hv]
            exact jget_replaced_metric _ _ _
    | bool b =>
      simp only [] at hv
      rw [if_neg (by simp [isUnhashable]),
        if_neg (by simp [metricInSchema])] at hv
      cases hf : find_closest_metric oracle schema q with
      | error e => rw [hf] at hv; exact Except.noConfusion hv
      | ok r =>
        rw [hf] at hv
        cases hc : asNum ((jget kvs "confidence").getD (Json.num (1/2))) with
        | none => rw [hc] at hv; exact Except.noConfusion hv
        | some c =>
          rw [hc] at hv
          injection hv with hv
          refine Or.inr ⟨rfl, r, ?_, find_closest_ok_mem _ _ _ _ hf⟩
          rw [← hv]
          exact jget_replaced_metric _ _ _
    | num qn =>
      simp only [] at hv
      rw [if_neg (by simp [isUnhashable]),
        if_neg (by simp [metricInSchema])] at hv
      cases hf : find_closest_metric oracle schema q with
      | error e => rw [hf] at hv; exact Except.noConfusion hv
      | ok r =>
        rw [hf] at hv
        cases hc : asNum ((jget kvs "confidence").getD (Json.num (1/2))) with
        | none => rw [hc] at hv; exact Except.noConfusion hv
        | some c =>
          rw [hc] at hv
          injection hv with hv
          refine Or.inr ⟨rfl, r, ?_, find_closest_ok_mem _ _ _ _ hf⟩
          rw [← hv]
          exact jget_replaced_metric _ _ _
    | arr xs =>
      simp only [] at hv
      rw [if_pos (by simp [isUnhashable])] at hv
      exact Except.noConfusion hv
    | obj kvs2 =>
      simp only [] at hv
      rw [if_pos (by simp [isUnhashable])] at hv
      exact Except.noConfusion hv

/-- A successful extraction decomposes into a successful oracle call, a
successful decode, and a successful validation. -/
theorem parse_ok_split (oracle : Oracle) (schema : Schema) (q : String)
    (intent : List (String × Json))
    (hp : parse_user_query oracle schema q = Except.ok intent) :
    ∃ raw kvs, oracle (parsePrompt schema q) = Except.ok raw ∧
      decode_oracle_reply raw = Except.ok kvs ∧
      validate_intent oracle schema q kvs = Except.ok intent := by
  unfold parse_user_query at hp
  cases ho : oracle (parsePrompt schema q) with
  | error e => rw [ho] at hp; exact Except.noConfusion hp
  | ok raw =>
    rw [ho] at hp
    simp only [] at hp
    cases hd : decode_oracle_reply raw with
    | error e => rw [hd] at hp; exact Except.noConfusion hp
    | ok kvs =>
      rw [hd] at hp
      simp only [] at hp
      exact ⟨raw, kvs, rfl, hd, hp⟩

/-- C2 counterexample: with a schema containing the empty string as a key
and an intent whose metric is that (non-null, in-schema) key, synthesis
still fails — Python's `if not metric` truthiness guard rejects the empty
string before the membership test. -/
theorem C2_counterexample :
    ("" ∈ schemaKeys emptyKeySchema) ∧
    build_promql emptyKeySchema [("metric", Json.str "")] =
      Except.error "Metric \x27\x27 not in schema" := by
  constructor
  · simp [emptyKeySchema, schemaKeys]
  · rfl

/-- C2 amended: (1) for every intent a successful extraction hands to the
rest of the pipeline with a truthy metric, that metric is a string key of
the Schema Store; (2) synthesis succeeds exactly when the intent's metric
is a non-empty string that is a schema key — it fails when the metric is
null, falsy (including the empty string, even if the empty string is a
schema key), or not a schema key. -/
theorem C2_amended (oracle : Oracle) (schema : Schema) (q : String) :
    (∀ intent, parse_user_query oracle schema q = Except.ok intent →
      otruthy (jget intent "metric") = true →
      ∃ s, jget intent "metric" = some (Json.str s) ∧ s ∈ schemaKeys schema) ∧
    (∀ intent, (build_promql schema intent).isOk = true ↔
      ∃ s, jget intent "metric" = some (Json.str s) ∧ s ≠ "" ∧
        s ∈ schemaKeys schema) := by
  constructor
  · intro intent hp ht
    obtain ⟨raw, kvs, ho, hd, hv⟩ := parse_ok_split oracle schema q intent hp
    rcases validate_ok_cases oracle schema q kvs intent hv with
      ⟨hnl, hi⟩ | ⟨_, hs⟩
    · subst hi
      rw [otruthy_false_of_isNoneLike hnl] at ht
      exact absurd ht (by simp)
    · exact hs
  · intro intent
    unfold build_promql
    cases hm : jget intent "metric" with
    | none => simp [Except.isOk, Except.toBool]
    | some j =>
      cases j with
      | str s =>
        simp only []
        by_cases hs : s = ""
        · subst hs
          simp [Except.isOk, Except.toBool]
        · rw [if_neg hs]
          cases hl : List.lookup s schema with
          | some spec =>
            simp only []
            have hmem : s ∈ schemaKeys schema := by
              rw [← lookup_isSome_iff]
              rw [hl]
              rfl
            constructor
            · intro _
              exact ⟨s, rfl, hs, hmem⟩
            · intro _
              split
              · rfl
              · split
                · rfl
                · split
                  · rfl
                  · split
                    · rfl
                    · rfl
          | none =>
            simp only []
            have hmem : s ∉ schemaKeys schema := by
              rw [← lookup_isSome_iff, hl]
              simp
            simp only [Except.isOk, Except.toBool]
            constructor
            · intro h
              exact absurd h (by simp)
            · rintro ⟨s2, hs2, _, hmem2⟩
              injection hs2 with hs2
              injection hs2 with hs2
              subst hs2
              exact absurd hmem2 hmem
      | null => simp [jtruthy, Except.isOk, Except.toBool]
      | bool b =>
        cases b <;> simp [jtruthy, isUnhashable, Except.isOk, Except.toBool]
      | num qn =>
        by_cases hq : qn = 0 <;>
          simp [jtruthy, hq, isUnhashable, Except.isOk, Except.toBool]
      | arr xs =>
        cases xs <;> simp [jtruthy, isUnhashable, Except.isOk, Except.toBool]
      | obj kvs2 =>
        cases kvs2 <;> simp [jtruthy, isUnhashable, Except.isOk, Except.toBool]

/-- C2 witness: synthesis succeeds on an in-schema non-empty metric. -/
theorem C2_witness :
    (build_promql exSchema [("metric", Json.str "cpu_usage")]).isOk = true :=
  ((C2_amended (fun _ => Except.error "unused") exSchema "q").2
    [("metric", Json.str "cpu_usage")]).mpr
    ⟨"cpu_usage", rfl, by decide, by simp [exSchema, schemaKeys]⟩

/-- C9: when the decoded intent carries a non-null string metric that is
not a schema key, the extractor does not accept it as-is: the resolved
metric replaces it and the confidence is rewritten to
`max(0.3, confidence - 0.2)`. -/
theorem C9_resolver_replacement (oracle : Oracle) (schema : Schema)
    (q raw : String) (kvs : List (String × Json)) (m : String) (c : ℚ)
    (k : String)
    (h1 : oracle (parsePrompt schema q) = Except.ok raw)
    (h2 : decode_oracle_reply raw = Except.ok kvs)
    (h3 : jget kvs "metric" = some (Json.str m))
    (h4 : (schemaKeys schema).contains m = false)
    (h5 : jget kvs "confidence" = some (Json.num c))
    (h6 : find_closest_metric oracle schema q = Except.ok k) :
    parse_user_query oracle schema q =
      Except.ok (jset (jset kvs "metric" (Json.str k)) "confidence"
        (Json.num (max (3/10) (c - 1/5)))) ∧
    jget (jset (jset kvs "metric" (Json.str k)) "confidence"
        (Json.num (max (3/10) (c - 1/5)))) "metric" = some (Json.str k) ∧
    jget (jset (jset kvs "metric" (Json.str k)) "confidence"
        (Json.num (max (3/10) (c - 1/5)))) "confidence" =
      some (Json.num (max (3/10) (c - 1/5))) := by
  refine ⟨?_, jget_replaced_metric _ _ _, jget_replaced_confidence _ _ _⟩
  unfold parse_user_query
  rw [h1]
  simp only []
  rw [h2]
  simp only []
  unfold validate_intent
  rw [h3]
  simp only []
  rw [if_neg (by simp [isUnhashable]),
    if_neg (by simp only [metricInSchema]; rw [h4]; simp), h6]
  simp only []
  rw [h5]
  rfl

/-- C9 witness: an out-of-schema metric `gpu` with confidence `0.9` is
replaced by the resolver's fallback `cpu_usage` with confidence `0.7`. -/
theorem C9_witness :
    parse_user_query
      (fun _ => Except.ok "\x7b\"metric\": \"gpu\", \"confidence\": 0.9\x7d")
      exSchema "what about the gpu?" =
      Except.ok
        (jset
          (jset [("metric", Json.str "gpu"), ("confidence", Json.num (9/10))]
            "metric" (Json.str "cpu_usage"))
          "confidence" (Json.num (max (3/10) ((9/10 : ℚ) - 1/5)))) :=
  (C9_resolver_replacement
    (fun _ => Except.ok "\x7b\"metric\": \"gpu\", \"confidence\": 0.9\x7d")
    exSchema "what about the gpu?"
    "\x7b\"metric\": \"gpu\", \"confidence\": 0.9\x7d"
    [("metric", Json.str "gpu"), ("confidence", Json.num (9/10))]
    "gpu" (9/10) "cpu_usage"
    rfl (by with_unfolding_all rfl) rfl rfl rfl rfl).1

/-- C3: the orchestrator catches every stage failure.  `process_query` is a
total function (the model of "never raises outward"); whenever any stage of
a turn fails with `str(e) = e`, the returned text is the single user-facing
sentence embedding `e`; and when no stage fails, the result is either the
fallback sentence or the formatter's answer. -/
theorem C3_orchestrator_catches (oracle : Oracle) (backend : Backend)
    (apiKey : Bool) (schema : Schema) (q : String) :
    (∀ e, stage_failure oracle backend apiKey schema q = some e →
      process_query oracle backend apiKey schema q = errorSentence e) ∧
    (stage_failure oracle backend apiKey schema q = none →
      process_query oracle backend apiKey schema q = couldNotUnderstandMsg ∨
      ∃ intent metrics ans,
        format_answer oracle schema intent metrics = Except.ok ans ∧
        process_query oracle backend apiKey schema q = ans) := by
  unfold process_query stage_failure
  cases hp : parse_user_query oracle schema q with
  | error e1 =>
    simp only []
    refine ⟨fun e he => ?_, fun hn => Option.noConfusion hn⟩
    injection he with he
    rw [he]
  | ok intent =>
    simp only []
    cases hto : otruthy (jget intent "metric") with
    | false =>
      simp only [Bool.not_false, if_true]
      exact ⟨fun e he => Option.noConfusion he, fun _ => Or.inl trivial⟩
    | true =>
      simp only [Bool.not_true, Bool.false_eq_true, if_false]
      cases hb : build_promql schema intent with
      | error e2 =>
        simp only []
        refine ⟨fun e he => ?_, fun hn => Option.noConfusion hn⟩
        injection he with he
        rw [he]
      | ok promql =>
        simp only []
        cases hx : execute_promql apiKey backend promql with
        | error e3 =>
          simp only []
          refine ⟨fun e he => ?_, fun hn => Option.noConfusion hn⟩
          injection he with he
          rw [he]
        | ok metrics =>
          simp only []
          cases hf : format_answer oracle schema intent metrics with
          | error e4 =>
            simp only []
            refine ⟨fun e he => ?_, fun hn => Option.noConfusion hn⟩
            injection he with he
            rw [he]
          | ok ans =>
            simp only []
            exact ⟨fun e he => Option.noConfusion he,
              fun _ => Or.inr ⟨intent, metrics, ans, hf, rfl⟩⟩

/-- C3 witness: an oracle reply with no JSON object fails the extraction
stage, and the turn returns the error sentence embedding that failure. -/
theorem C3_witness :
    process_query (fun _ => Except.ok "no json here")
      (fun _ => Except.error "unused") true exSchema "how is the cpu?" =
      errorSentence noStructuredMsg :=
  (C3_orchestrator_catches (fun _ => Except.ok "no json here")
    (fun _ => Except.error "unused") true exSchema "how is the cpu?").1
    noStructuredMsg rfl

/-- C4 counterexample: the "couldn't understand" branch is reachable.  When
the extraction oracle returns the JSON object `\x7b\x7d` (metric missing, which
the extractor treats like null), `process_query` returns the
couldn't-understand message — so there IS an oracle output reaching it. -/
theorem C4_counterexample :
    process_query (fun _ => Except.ok "\x7b\x7d")
      (fun _ => Except.error "unused") true exSchema
      "what is the weather like today?" = couldNotUnderstandMsg := rfl

/-- C4 amended: the fallback branch is live, not dead: whenever extraction
decodes an object whose metric is null or missing, the resolver is never
invoked (it only runs for non-null out-of-schema metrics), the null
propagates, and `process_query` returns the couldn't-understand message;
conversely, on a schema without empty-string keys, an intent that leaves
extraction with a falsy metric can only have come from a null/missing
decoded metric. -/
theorem C4_amended (oracle : Oracle) (backend : Backend) (apiKey : Bool)
    (schema : Schema) (q raw : String) (kvs : List (String × Json))
    (h1 : oracle (parsePrompt schema q) = Except.ok raw)
    (h2 : decode_oracle_reply raw = Except.ok kvs)
    (h4 : ("" : String) ∉ schemaKeys schema) :
    (isNoneLike (jget kvs "metric") = true →
      process_query oracle backend apiKey schema q = couldNotUnderstandMsg) ∧
    (∀ intent, parse_user_query oracle schema q = Except.ok intent →
      (otruthy (jget intent "metric") = false ↔
        isNoneLike (jget kvs "metric") = true)) := by
  constructor
  · intro hnl
    have hp : parse_user_query oracle schema q = Except.ok kvs := by
      unfold parse_user_query
      rw [h1]
      simp only []
      rw [h2]
      simp only []
      unfold validate_intent
      cases hm : jget kvs "metric" with
      | none => rfl
      | some j =>
        cases j with
        | null => rfl
        | bool b => rw [hm] at hnl; exact absurd hnl (by simp [isNoneLike])
        | num qn => rw [hm] at hnl; exact absurd hnl (by simp [isNoneLike])
        | str s => rw [hm] at hnl; exact absurd hnl (by simp [isNoneLike])
        | arr xs => rw [hm] at hnl; exact absurd hnl (by simp [isNoneLike])
        | obj kvs2 => rw [hm] at hnl; exact absurd hnl (by simp [isNoneLike])
    unfold process_query
    rw [hp]
    simp only []
    rw [otruthy_false_of_isNoneLike hnl]
    rfl
  · intro intent hp
    obtain ⟨raw2, kvs2, ho2, hd2, hv2⟩ := parse_ok_split oracle schema q intent hp
    rw [h1] at ho2
    injection ho2 with hraw
    subst hraw
    rw [h2] at hd2
    injection hd2 with hkvs
    subst hkvs
    rcases validate_ok_cases oracle schema q kvs intent hv2 with
      ⟨hnl, hi⟩ | ⟨hnl, s, hjs, hmem⟩
    · subst hi
      exact ⟨fun _ => hnl, fun _ => otruthy_false_of_isNoneLike hnl⟩
    · constructor
      · intro hof
        rw [hjs] at hof
        simp [otruthy, jtruthy] at hof
        rw [hof] at hmem
        exact absurd hmem h4
      · intro h
        exact Bool.noConfusion (hnl.symm.trans h)

/-- C4 witness: an explicit JSON `null` metric also reaches the fallback
branch, through the amended characterization. -/
theorem C4_witness :
    process_query (fun _ => Except.ok "\x7b\"metric\": null\x7d")
      (fun _ => Except.error "unused") true exSchema "tell me something" =
      couldNotUnderstandMsg :=
  (C4_amended (fun _ => Except.ok "\x7b\"metric\": null\x7d")
    (fun _ => Except.error "unused") true exSchema "tell me something"
    "\x7b\"metric\": null\x7d" [("metric", Json.null)]
    rfl rfl (by simp [exSchema, schemaKeys])).1 rfl

theorem dropWhile_cons_head {α : Type} {p : α → Bool} :
    ∀ (l : List α) (c : α) (r : List α), l.dropWhile p = c :: r → p c = false := by
  intro l
  induction l with
  | nil => intro c r h; exact List.noConfusion h
  | cons x xs ih =>
    intro c r h
    by_cases hx : p x = true
    · rw [List.dropWhile_cons_of_pos hx] at h
      exact ih c r h
    · rw [List.dropWhile_cons_of_neg hx] at h
      injection h with h1 _
      subst h1
      exact Bool.not_eq_true _ ▸ hx

theorem upToLastRbrace_none_iff (cs : List Char) :
    upToLastRbrace cs = none ↔ '\x7d' ∉ cs := by
  unfold upToLastRbrace
  cases hd : cs.reverse.dropWhile (fun c => ¬ c = '\x7d') with
  | nil =>
    simp only []
    rw [List.dropWhile_eq_nil_iff] at hd
    constructor
    · intro _ hmem
      have := hd '\x7d' (List.mem_reverse.mpr hmem)
      simp at this
    · intro _
      trivial
  | cons d ds =>
    simp only []
    constructor
    · intro h
      exact Option.noConfusion h
    · intro hmem
      exfalso
      apply hmem
      have hdc : (fun c => decide (¬ c = '\x7d')) d = false :=
        dropWhile_cons_head cs.reverse d ds hd
      simp at hdc
      have hmemd : d ∈ cs.reverse.dropWhile (fun c => ¬ c = '\x7d') := by
        rw [hd]; exact List.mem_cons_self _ _
      have hdin : d ∈ cs :=
        List.mem_reverse.mp ((List.dropWhile_sublist _).mem hmemd)
      rwa [hdc] at hdin

theorem extractSpan_none_iff (cs : List Char) :
    extractSpan cs = none ↔ hasBracePair cs = false := by
  induction cs with
  | nil => simp [extractSpan, hasBracePair]
  | cons c rest ih =>
    by_cases hc : c = '\x7b'
    · subst hc
      have h1 : extractSpan ('\x7b' :: rest) =
          match upToLastRbrace rest with
          | none => none
          | some p => some ('\x7b' :: p) := by
        unfold extractSpan
        rw [List.dropWhile_cons_of_neg (by simp)]
      have h2 : hasBracePair ('\x7b' :: rest) = rest.contains '\x7d' := by
        unfold hasBracePair
        rw [if_pos rfl]
      rw [h1, h2]
      cases hu : upToLastRbrace rest with
      | none =>
        have hnm : '\x7d' ∉ rest := (upToLastRbrace_none_iff rest).mp hu
        simp only []
        constructor
        · intro _
          rw [← Bool.not_eq_true]
          intro hcon
          exact hnm (List.elem_iff.mp hcon)
        · intro _
          trivial
      | some p =>
        have hmm : '\x7d' ∈ rest := by
          by_contra hnm
          rw [(upToLastRbrace_none_iff rest).mpr hnm] at hu
          exact Option.noConfusion hu
        simp only []
        constructor
        · intro h
          exact Option.noConfusion h
        · intro hcon
          exact Bool.noConfusion ((List.elem_iff.mpr hmm).symm.trans hcon)
    · have h1 : extractSpan (c :: rest) = extractSpan rest := by
        unfold extractSpan
        rw [List.dropWhile_cons_of_pos (by simp [hc])]
      have h2 : hasBracePair (c :: rest) = hasBracePair rest := by
        simp only [hasBracePair]
        rw [if_neg hc]
      rw [h1, h2]
      exact ih

theorem hasBracePair_iff (cs : List Char) :
    hasBracePair cs = true ↔
      ∃ l m r, cs = l ++ '\x7b' :: (m ++ '\x7d' :: r) := by
  induction cs with
  | nil =>
    simp only [hasBracePair]
    constructor
    · intro h
      exact Bool.noConfusion h
    · rintro ⟨l, m, r, h⟩
      cases l <;> exact List.noConfusion h
  | cons c rest ih =>
    by_cases hc : c = '\x7b'
    · subst hc
      rw [show hasBracePair ('\x7b' :: rest) = rest.contains '\x7d' by
        unfold hasBracePair; rw [if_pos rfl]]
      constructor
      · intro h
        obtain ⟨s, t, hst⟩ := List.append_of_mem (List.elem_iff.mp h)
        exact ⟨[], s, t, by rw [hst]; rfl⟩
      · rintro ⟨l, m, r, h⟩
        cases l with
        | nil =>
          injection h with _ h2
          rw [h2]
          exact List.elem_iff.mpr (by simp)
        | cons x l2 =>
          injection h with _ h2
          rw [h2]
          exact List.elem_iff.mpr (by simp)
    · rw [show hasBracePair (c :: rest) = hasBracePair rest by
        simp only [hasBracePair]
        rw [if_neg hc]]
      rw [ih]
      constructor
      · rintro ⟨l, m, r, h⟩
        exact ⟨c :: l, m, r, by rw [h]; rfl⟩
      · rintro ⟨l, m, r, h⟩
        cases l with
        | nil =>
          injection h with h1 _
          exact absurd h1 hc
        | cons x l2 =>
          injection h with _ h2
          exact ⟨l2, m, r, h2⟩

theorem extractSpan_some_decomp (cs span : List Char)
    (h : extractSpan cs = some span) :
    ∃ l m r, cs = l ++ span ++ r ∧ span = '\x7b' :: (m ++ ['\x7d']) ∧
      '\x7b' ∉ l ∧ '\x7d' ∉ r := by
  unfold extractSpan at h
  cases hd : cs.dropWhile (fun c => ¬ c = '\x7b') with
  | nil => rw [hd] at h; exact Option.noConfusion h
  | cons b rest =>
    rw [hd] at h
    simp only [] at h
    cases hu : upToLastRbrace rest with
    | none => rw [hu] at h; exact Option.noConfusion h
    | some p =>
      rw [hu] at h
      injection h with h
      have hb : b = '\x7b' := by
        have := dropWhile_cons_head cs b rest hd
        simpa using this
      subst hb
      unfold upToLastRbrace at hu
      cases hrv : rest.reverse.dropWhile (fun c => ¬ c = '\x7d') with
      | nil => rw [hrv] at hu; exact Option.noConfusion hu
      | cons d ds =>
        rw [hrv] at hu
        simp only [] at hu
        injection hu with hu
        have hdc : d = '\x7d' := by
          have := dropWhile_cons_head rest.reverse d ds hrv
          simpa using this
        subst hdc
        obtain ⟨l, hl, hlfree⟩ :
            ∃ l, cs = l ++ '\x7b' :: rest ∧ '\x7b' ∉ l := by
          refine ⟨cs.takeWhile (fun c => ¬ c = '\x7b'), ?_, ?_⟩
          · conv_lhs => rw [← List.takeWhile_append_dropWhile
              (p := fun c => ¬ c = '\x7b') (l := cs)]
            rw [hd]
          · intro hmem
            have := List.mem_takeWhile_imp hmem
            simp at this
        obtain ⟨r, hr, hrfree⟩ :
            ∃ r, rest = p ++ r ∧ '\x7d' ∉ r := by
          refine ⟨(rest.reverse.takeWhile (fun c => ¬ c = '\x7d')).reverse,
            ?_, ?_⟩
          · have hsp : rest.reverse =
                rest.reverse.takeWhile (fun c => ¬ c = '\x7d') ++
                  ('\x7d' :: ds) := by
              conv_lhs => rw [← List.takeWhile_append_dropWhile
                (p := fun c => ¬ c = '\x7d') (l := rest.reverse)]
              rw [hrv]
            have h2 := congrArg List.reverse hsp
            rw [List.reverse_reverse, List.reverse_append] at h2
            conv_lhs => rw [h2]
            rw [hu]
          · intro hmem
            have := List.mem_takeWhile_imp (List.mem_reverse.mp hmem)
            simp at this
        refine ⟨l, ds.reverse, r, ?_, ?_, hlfree, hrfree⟩
        · rw [hl, hr, ← h]
          simp
        · rw [← h, ← hu]
          simp

/-- C5 counterexample: an oracle output containing a well-formed JSON
object (with commentary around it) followed by a stray closing brace.  The
first well-formed JSON object substring exists, yet the extractor fails —
and with the malformed-JSON error, not the no-structured-output one — so
the post-processing does not locate the first well-formed object substring,
and the failure condition is not "no such substring exists". -/
theorem C5_counterexample :
    pyContains "some text \x7b\"m\": 1\x7d \x7d more" "\x7b\"m\": 1\x7d" = true ∧
    jsonLoads "\x7b\"m\": 1\x7d" = some (Json.obj [("m", Json.num 1)]) ∧
    parse_user_query
      (fun _ => Except.ok "some text \x7b\"m\": 1\x7d \x7d more") exSchema
      "show me the m value" = Except.error jsonDecodeErrMsg := by
  refine ⟨rfl, by with_unfolding_all rfl, by with_unfolding_all rfl⟩

/-- C5 amended: the post-processing extracts the single span running from
the first opening brace to the last closing brace of the stripped output
(the greedy regex match) and parses that whole span; it fails with the
no-structured-output error exactly when the stripped output contains no
opening brace followed later by a closing brace.  A well-formed object
earlier in the output is missed when stray braces follow it. -/
theorem C5_amended (raw : String) :
    (decode_oracle_reply raw = Except.error noStructuredMsg ↔
      hasBracePair (pyStrip raw).data = false) ∧
    (hasBracePair (pyStrip raw).data = true ↔
      ∃ l m r, (pyStrip raw).data = l ++ '\x7b' :: (m ++ '\x7d' :: r)) ∧
    (∀ span, extractSpan (pyStrip raw).data = some span →
      ∃ l m r, (pyStrip raw).data = l ++ span ++ r ∧
        span = '\x7b' :: (m ++ ['\x7d']) ∧ '\x7b' ∉ l ∧ '\x7d' ∉ r) := by
  refine ⟨?_, hasBracePair_iff _, fun span h => extractSpan_some_decomp _ span h⟩
  unfold decode_oracle_reply
  simp only []
  cases hs : extractSpan (pyStrip raw).data with
  | none =>
    simp only []
    have hbp := (extractSpan_none_iff _).mp hs
    constructor
    · intro _
      exact hbp
    · intro _
      trivial
  | some span =>
    simp only []
    have hbp : hasBracePair (pyStrip raw).data = true := by
      by_contra hcon
      rw [Bool.not_eq_true] at hcon
      rw [(extractSpan_none_iff _).mpr hcon] at hs
      exact Option.noConfusion hs
    constructor
    · intro h
      exfalso
      cases hjl : jsonLoads (String.mk span) with
      | none =>
        rw [hjl] at h
        simp only [] at h
        injection h with h
        exact absurd h (by decide)
      | some v =>
        rw [hjl] at h
        cases v <;> simp only [] at h <;>
          first
          | exact Except.noConfusion h
          | (injection h with h; exact absurd h (by decide))
    · intro hcon
      rw [hbp] at hcon
      exact Bool.noConfusion hcon

/-- C5 witness: the span decomposition at a concrete output with
commentary on both sides. -/
theorem C5_witness :
    ∃ l m r, (pyStrip "noise \x7bxx\x7d tail").data =
        l ++ "\x7bxx\x7d".data ++ r ∧
      "\x7bxx\x7d".data = '\x7b' :: (m ++ ['\x7d']) ∧
      '\x7b' ∉ l ∧ '\x7d' ∉ r :=
  (C5_amended "noise \x7bxx\x7d tail").2.2 "\x7bxx\x7d".data rfl

end GemmaAgent
